import Mathlib

/-!
Shallow embedding of the watch-party session coordinator (the Node/socket.io
server in the repository) and proofs about its room registry, membership and
host management, playback synchronizer, chat log, and signaling relay.

JS values are modelled as follows: socket ids, room codes, usernames and
message bodies are `String`; a JS number-or-undefined input (e.g. `currentTime`
in a transport command payload) is `Option Int` (`none` = `undefined`); the
`rooms` object is an association list from room code to `Room` (JS object keys
are in insertion order and unique); a handler that emits events returns the
updated state together with the list of emits it performed, and a handler that
would throw a `TypeError` (dereferencing `null`) returns `none`.
-/

namespace WatchParty

/-- Entries `{ id: socketId, username: string }` of `room.users`. -/
structure User where
  id : String
  username : String
deriving DecidableEq, Repr

/-- The `room.currentVideo` object `{ videoId, title, position, isPlaying }`.
`position` is `Option Int` because the `video-seek` handler assigns the raw
payload field, which may be `undefined`. -/
structure Video where
  videoId : String
  title : String
  position : Option Int
  isPlaying : Bool
deriving DecidableEq, Repr

/-- Entries of `room.messages`. -/
structure ChatMessage where
  id : String
  username : String
  message : String
  timestamp : Nat
deriving DecidableEq, Repr

/-- A room of the in-memory `rooms` store. -/
structure Room where
  id : String
  host : Option String
  users : List User
  currentVideo : Option Video
  messages : List ChatMessage
  createdAt : Nat
deriving DecidableEq, Repr

/-- The global `rooms` object: an association list room code to room. -/
abbrev Rooms := List (String × Room)

/-- Payloads of the events the server emits. -/
inductive Payload where
  | errorMsg (message : String)
  | joinedRoom (roomCode : String) (isHost : Bool) (currentVideo : Option Video)
      (messages : List ChatMessage) (users : List User)
  | userJoined (user : User) (userCount : Nat)
  | videoLoaded (videoId : String) (title : String)
  | timePayload (time : Option Int)
  | newMessage (m : ChatMessage)
  | newHost (u : User)
  | userLeft (user : User) (userCount : Nat) (newHost : Option User)
  | voiceUsers (users : List String)
  | joinedVoice (callerID : String)
deriving DecidableEq, Repr

/-- An emit performed by a handler, by delivery target:
`sender` is `socket.emit` (the originating connection only),
`roomOthers` is `socket.to(code).emit` (every member of the room channel
except the sender), `room` is `io.to(code).emit` (every member of the room
channel, sender included), `direct` is an emit addressed to one connection. -/
inductive Emit where
  | sender (event : String) (p : Payload)
  | roomOthers (code : String) (event : String) (p : Payload)
  | room (code : String) (event : String) (p : Payload)
  | direct (target : String) (event : String) (p : Payload)
deriving DecidableEq, Repr

/-- Lookup `rooms[code]`. -/
def lookupRoom (rooms : Rooms) (code : String) : Option Room :=
  (rooms.find? (fun p => p.1 == code)).map (fun p => p.2)

/-- Overwrite the entry of `code` (used after mutating a room in place). -/
def updateRoom (rooms : Rooms) (code : String) (r : Room) : Rooms :=
  rooms.map (fun p => if p.1 == code then (code, r) else p)

/-- Model of JS `x || 0` on a number-or-undefined value (`0` and `undefined` are falsy). -/
def jsOrZero : Option Int → Int
  | none => 0
  | some v => if v = 0 then 0 else v

/-- Model of JS `s || d` on a string-or-undefined value (`undefined` and `""` are falsy). -/
def jsOrStr (s : Option String) (d : String) : String :=
  match s with
  | none => d
  | some u => if u = "" then d else u

/-- Model of JS `s.toUpperCase()` (character-wise uppercasing; room codes are ASCII). -/
def jsToUpperCase (s : String) : String :=
  String.mk (s.data.map Char.toUpper)

/-- The 36-symbol alphabet of `generateRoomCode`. -/
def roomChars : List Char := "ABCDEFGHIJKLMNOPQRSTUVWXYZ0123456789".data

theorem roomChars_length : roomChars.length = 36 := rfl

/-- The `generateRoomCode()` function: six draws of `Math.floor(Math.random() * 36)`
(each a value in `[0, 36)`, hence `Fin 36`) indexed into the alphabet. -/
def generateRoomCode (draws : Fin 6 → Fin 36) : String :=
  String.mk ((List.finRange 6).map
    (fun i => roomChars.get (Fin.cast roomChars_length.symm (draws i))))

/-- The `POST /api/create-room` handler: draw candidate codes until one is
not currently in use (`do ... while (rooms[roomCode])`), then insert an
empty room.
`attempts n` gives the six random draws of the `n`-th loop iteration; the
hypothesis `h` says some iteration produces a fresh code (with true
randomness this holds with probability 1; without it the JS loop spins
forever, which a total function cannot model). -/
def createRoom (attempts : Nat → Fin 6 → Fin 36) (now : Nat) (rooms : Rooms)
    (h : ∃ n, lookupRoom rooms (generateRoomCode (attempts n)) = none) :
    String × Rooms :=
  let code := generateRoomCode (attempts (Nat.find h))
  (code, rooms ++ [(code,
    { id := code, host := none, users := [], currentVideo := none,
      messages := [], createdAt := now })])

/-- Result of the `join-room` handler: the updated store, the socket's
updated channel set (`socket.rooms`), and the emits. -/
structure JoinResult where
  rooms : Rooms
  channels : List String
  emits : List Emit
deriving DecidableEq, Repr

/-- The `join-room` handler. `channels` is the socket's current channel set
(`socket.rooms`, which always contains the socket's own id); the handler
leaves every channel other than the socket's own id, joins the (uppercased)
room code, assigns the joiner as host only when the member list is empty,
appends the new member, acks the sender and notifies the others.
`randName` stands for the `Math.floor(Math.random() * 1000)` draw of the
default username. -/
def joinRoom (socketId : String) (channels : List String) (roomCode : String)
    (username : Option String) (randName : Nat) (rooms : Rooms) : JoinResult :=
  let code := jsToUpperCase roomCode
  match lookupRoom rooms code with
  | none => ⟨rooms, channels, [Emit.sender "error" (Payload.errorMsg "Room not found")]⟩
  | some room =>
    let channels1 := (channels.filter (fun r => r == socketId)) ++ [code]
    let room1 := if room.users.length = 0 then { room with host := some socketId } else room
    let user : User := { id := socketId, username := jsOrStr username ("User" ++ toString randName) }
    let room2 := { room1 with users := room1.users ++ [user] }
    ⟨updateRoom rooms code room2, channels1,
      [Emit.sender "joined-room"
        (Payload.joinedRoom code (room2.host == some socketId) room2.currentVideo
          room2.messages room2.users),
       Emit.roomOthers code "user-joined" (Payload.userJoined user room2.users.length)]⟩

/-- The character class `[a-zA-Z0-9_-]` of the video-id regexes. -/
def isUrlSafeChar (c : Char) : Bool :=
  c.isAlphanum || c == '_' || c == '-'

/-- Try to match, at the head of `s`, the literal `pat` followed by exactly
eleven characters of `[a-zA-Z0-9_-]`; on success return those eleven
characters (the capture group of the regex). -/
def matchIdAt (pat : List Char) (s : List Char) : Option (List Char) :=
  if s.take pat.length = pat ∧ ((s.drop pat.length).take 11).length = 11
      ∧ ((s.drop pat.length).take 11).all isUrlSafeChar = true
  then some ((s.drop pat.length).take 11) else none

/-- Leftmost match of `pat` followed by an eleven-character id (regex search
semantics: try each start position left to right). -/
def scanFor (pat : List Char) : List Char → Option (List Char)
  | [] => none
  | c :: cs =>
    match matchIdAt pat (c :: cs) with
    | some cand => some cand
    | none => scanFor pat cs

/-- Head match of `[?&]v=` followed by an eleven-character id. -/
def matchQueryAt : List Char → Option (List Char)
  | [] => none
  | c :: rest =>
    if c = '?' ∨ c = '&' then matchIdAt ['v', '='] rest else none

/-- Leftmost match of the regex `[?&]v=([a-zA-Z0-9_-]\x7b11\x7d)`. -/
def scanQuery : List Char → Option (List Char)
  | [] => none
  | c :: cs =>
    match matchQueryAt (c :: cs) with
    | some cand => some cand
    | none => scanQuery cs

/-- The `extractYouTubeVideoId(url)` function: `null`/empty input gives `null`; otherwise
try the four regexes in source order (short link, `[?&]v=` query parameter,
embed path, watch path) and return the first eleven-character capture. -/
def extractYouTubeVideoId (url : Option String) : Option String :=
  match url with
  | none => none
  | some u =>
    if u = "" then none
    else
      match scanFor "youtu.be/".data u.data with
      | some cand => some (String.mk cand)
      | none =>
        match scanQuery u.data with
        | some cand => some (String.mk cand)
        | none =>
          match scanFor "youtube.com/embed/".data u.data with
          | some cand => some (String.mk cand)
          | none =>
            match scanFor "youtube.com/watch?v=".data u.data with
            | some cand => some (String.mk cand)
            | none => none

/-- The `load-video` handler (note: this lookup does not uppercase the code).
Missing room and non-host sender get an `error` emit; an unparsable URL gets
an `error` emit; otherwise `currentVideo` is replaced wholesale and
`video-loaded` goes to the whole room via `io.to`. -/
def loadVideo (socketId roomCode : String) (videoUrl : Option String)
    (rooms : Rooms) : Rooms × List Emit :=
  match lookupRoom rooms roomCode with
  | none => (rooms, [Emit.sender "error" (Payload.errorMsg "Room not found")])
  | some room =>
    if room.host ≠ some socketId then
      (rooms, [Emit.sender "error" (Payload.errorMsg "Only the host can load videos")])
    else
      match extractYouTubeVideoId videoUrl with
      | none => (rooms, [Emit.sender "error" (Payload.errorMsg "Invalid YouTube URL")])
      | some vid =>
        let v : Video :=
          { videoId := vid, title := "Video " ++ vid, position := some 0, isPlaying := false }
        (updateRoom rooms roomCode { room with currentVideo := some v },
         [Emit.room roomCode "video-loaded" (Payload.videoLoaded vid v.title)])

/-- The `video-play` handler. A missing room or a non-host sender returns
silently (`some` with no state change and no emits); a host command with
`currentVideo` still `null` throws a `TypeError` on the field assignment,
modelled as `none`. -/
def videoPlay (socketId roomCode : String) (currentTime : Option Int)
    (rooms : Rooms) : Option (Rooms × List Emit) :=
  match lookupRoom rooms roomCode with
  | none => some (rooms, [])
  | some room =>
    if room.host ≠ some socketId then some (rooms, [])
    else
      match room.currentVideo with
      | none => none
      | some v =>
        let v1 := { v with isPlaying := true, position := some (jsOrZero currentTime) }
        some (updateRoom rooms roomCode { room with currentVideo := some v1 },
          [Emit.roomOthers roomCode "video-play" (Payload.timePayload currentTime)])

/-- The `video-pause` handler: as `video-play` with `isPlaying := false`. -/
def videoPause (socketId roomCode : String) (currentTime : Option Int)
    (rooms : Rooms) : Option (Rooms × List Emit) :=
  match lookupRoom rooms roomCode with
  | none => some (rooms, [])
  | some room =>
    if room.host ≠ some socketId then some (rooms, [])
    else
      match room.currentVideo with
      | none => none
      | some v =>
        let v1 := { v with isPlaying := false, position := some (jsOrZero currentTime) }
        some (updateRoom rooms roomCode { room with currentVideo := some v1 },
          [Emit.roomOthers roomCode "video-pause" (Payload.timePayload currentTime)])

/-- The `video-seek` handler: stores the raw `seekTime` payload field into
`position` (no `|| 0` coercion in the source). -/
def videoSeek (socketId roomCode : String) (seekTime : Option Int)
    (rooms : Rooms) : Option (Rooms × List Emit) :=
  match lookupRoom rooms roomCode with
  | none => some (rooms, [])
  | some room =>
    if room.host ≠ some socketId then some (rooms, [])
    else
      match room.currentVideo with
      | none => none
      | some v =>
        let v1 := { v with position := seekTime }
        some (updateRoom rooms roomCode { room with currentVideo := some v1 },
          [Emit.roomOthers roomCode "video-seek" (Payload.timePayload seekTime)])

/-- The `send-message` handler: silent no-op when the room is missing or the
sender is not in its member list; otherwise append the trimmed message, keep
only the last 50 entries (`messages.slice(-50)`), and broadcast via `io.to`.
`now` stands for `Date.now()`. -/
def sendMessage (socketId roomCode message : String) (now : Nat)
    (rooms : Rooms) : Rooms × List Emit :=
  match lookupRoom rooms roomCode with
  | none => (rooms, [])
  | some room =>
    match room.users.find? (fun u => u.id == socketId) with
    | none => (rooms, [])
    | some user =>
      let cm : ChatMessage :=
        { id := toString now, username := user.username,
          message := message.trim, timestamp := now }
      let msgs1 := room.messages ++ [cm]
      let msgs2 := if msgs1.length > 50 then msgs1.drop (msgs1.length - 50) else msgs1
      (updateRoom rooms roomCode { room with messages := msgs2 },
       [Emit.room roomCode "new-message" (Payload.newMessage cm)])

/-- Model of `findIndex` on `socket.id` plus `splice(idx, 1)`: remove the first user
with the given id, returning it and the remaining list. -/
def removeUser (socketId : String) : List User → Option (User × List User)
  | [] => none
  | u :: rest =>
    if u.id == socketId then some (u, rest)
    else
      match removeUser socketId rest with
      | none => none
      | some (w, rest1) => some (w, u :: rest1)

/-- The per-room body of the `disconnect` handler: remove the departing
member; if it was host and members remain, promote `users[0]` and broadcast
`new-host` via `io.to`; notify the remaining members with `user-left`. -/
def disconnectRoomStep (socketId code : String) (room : Room) : Room × List Emit :=
  match removeUser socketId room.users with
  | none => (room, [])
  | some (user, remaining) =>
    let room1 := { room with users := remaining }
    let promoted :=
      if room1.host == some socketId && remaining.length > 0 then
        match remaining with
        | u0 :: _ =>
          ({ room1 with host := some u0.id },
           [Emit.room code "new-host" (Payload.newHost u0)])
        | [] => (room1, [])
      else (room1, [])
    let room2 := promoted.1
    let newHostField : Option User :=
      match room2.users with
      | u0 :: _ => if room2.host == some u0.id then some u0 else none
      | [] => none
    (room2, promoted.2 ++
      [Emit.roomOthers code "user-left"
        (Payload.userLeft user room2.users.length newHostField)])

/-- The `cleanupEmptyRooms()` sweep: delete every room whose member list is empty. -/
def cleanupEmptyRooms (rooms : Rooms) : Rooms :=
  rooms.filter (fun p => p.2.users.length != 0)

/-- The `disconnect` handler: run the per-room step over every room (the
handler iterates `Object.keys(rooms)`), then sweep empty rooms. -/
def disconnect (socketId : String) (rooms : Rooms) : Rooms × List Emit :=
  let stepped := rooms.map (fun p =>
    let r := disconnectRoomStep socketId p.1 p.2
    ((p.1, r.1), r.2))
  (cleanupEmptyRooms (stepped.map (fun q => q.1)),
   (stepped.map (fun q => q.2)).flatten)

/-- Per-room voice-participant sets of the signaling relay, an association
list room code to the ordered set of connection ids currently in voice. -/
abbrev VoiceSets := List (String × List String)

/-- Modelled from the spec: the server under `src` registers no handler for
the `join-voice-chat` event the client emits (only the client-side emitters
and listeners exist in the sources), so the Signaling Relay's `voiceJoin` is
taken from the spec's words: "adds to the voice set; broadcasts the updated
voice-participant set to the room, and separately notifies every other
current voice participant of the new arrival (pairwise `user-joined-voice`
so each existing participant can initiate a one-to-one handshake with the
newcomer)"; the voice-participant-set broadcast is the `voice-chat-users`
event carrying the array of connection ids. -/
def voiceJoin (connectionId roomCode : String) (voice : VoiceSets) :
    VoiceSets × List Emit :=
  let cur := ((voice.find? (fun p => p.1 == roomCode)).map (fun p => p.2)).getD []
  let others := cur.filter (fun o => o ≠ connectionId)
  let newSet := if connectionId ∈ cur then cur else cur ++ [connectionId]
  let voice1 :=
    if (voice.find? (fun p => p.1 == roomCode)).isSome then
      voice.map (fun p => if p.1 == roomCode then (roomCode, newSet) else p)
    else voice ++ [(roomCode, newSet)]
  (voice1,
   Emit.room roomCode "voice-chat-users" (Payload.voiceUsers newSet)
     :: others.map (fun o => Emit.direct o "user-joined-voice" (Payload.joinedVoice connectionId)))

/-- The voice set of a room. -/
def voiceSetOf (voice : VoiceSets) (roomCode : String) : List String :=
  ((voice.find? (fun p => p.1 == roomCode)).map (fun p => p.2)).getD []

/-- Recognizer for a `new-host` broadcast addressed to a given room. -/
def isNewHostEmit (code : String) : Emit → Bool
  | Emit.room c ev _ => c == code && ev == "new-host"
  | _ => false

/-- The position stored in a room's playback state after a transport-command
result (`none` when the handler threw, the room is gone, or no video is
loaded). -/
def storedPosition (res : Option (Rooms × List Emit)) (code : String) :
    Option (Option Int) :=
  match res with
  | none => none
  | some r =>
    match lookupRoom r.1 code with
    | none => none
    | some room =>
      match room.currentVideo with
      | none => none
      | some v => some v.position

/-! ### Concrete example states used by witnesses and counterexamples -/

def userS1 : User := { id := "s1", username := "alice" }

def userS2 : User := { id := "s2", username := "bob" }

def exVideo : Video :=
  { videoId := "dQw4w9WgXcQ", title := "Video dQw4w9WgXcQ",
    position := some 0, isPlaying := false }

/-- A room hosted by `s1` with a loaded video and two members. -/
def exRoomVid : Room :=
  { id := "AAAAAA", host := some "s1", users := [userS1, userS2],
    currentVideo := some exVideo, messages := [], createdAt := 0 }

def exRoomsVid : Rooms := [("AAAAAA", exRoomVid)]

/-- A room hosted by `s1` with one member and no video. -/
def exRoomA : Room :=
  { id := "AAAAAA", host := some "s1", users := [userS1],
    currentVideo := none, messages := [], createdAt := 0 }

/-- A second, empty room. -/
def exRoomB : Room :=
  { id := "BBBBBB", host := none, users := [],
    currentVideo := none, messages := [], createdAt := 0 }

def exRoomsAB : Rooms := [("AAAAAA", exRoomA), ("BBBBBB", exRoomB)]

/-- A constant draw sequence; every candidate code is `AAAAAA`. -/
def attempts0 : Nat → Fin 6 → Fin 36 := fun _ _ => ⟨0, by decide⟩

/-! ### Association-list helper lemmas -/

theorem assoc_find?_update {β : Type} (l : List (String × β)) (code : String) (b : β)
    (h : (l.find? (fun p => p.1 == code)).isSome = true) :
    (l.map (fun p => if p.1 == code then (code, b) else p)).find? (fun p => p.1 == code)
      = some (code, b) := by
  induction l with
  | nil => simp at h
  | cons p ps ih =>
    cases hc : (p.1 == code) with
    | true =>
      have hhead : (if p.1 == code then (code, b) else p) = (code, b) := by simp [hc]
      rw [List.map_cons, hhead]
      exact List.find?_cons_of_pos _ (by simp)
    | false =>
      have hhead : (if p.1 == code then (code, b) else p) = p := by simp [hc]
      rw [List.map_cons, hhead, List.find?_cons_of_neg _ (by simp [hc])]
      apply ih
      rw [List.find?_cons_of_neg _ (by simp [hc])] at h
      exact h

theorem assoc_find?_append {β : Type} (l : List (String × β)) (code : String) (b : β)
    (h : l.find? (fun p => p.1 == code) = none) :
    (l ++ [(code, b)]).find? (fun p => p.1 == code) = some (code, b) := by
  induction l with
  | nil => simp [List.find?]
  | cons p ps ih =>
    have hc : (p.1 == code) = false := by
      by_contra hcc
      have : (p.1 == code) = true := by simpa using hcc
      simp [List.find?_cons_of_pos, this] at h
    have h' : ps.find? (fun p => p.1 == code) = none := by
      simpa [List.find?_cons_of_neg, hc] using h
    simpa [List.find?_cons_of_neg, hc] using ih h'

theorem lookupRoom_update_self (rooms : Rooms) (code : String) (room r : Room)
    (h : lookupRoom rooms code = some room) :
    lookupRoom (updateRoom rooms code r) code = some r := by
  have hs : ((rooms.find? (fun p => p.1 == code)).isSome) = true := by
    unfold lookupRoom at h
    cases hf : rooms.find? (fun p => p.1 == code) with
    | none => rw [hf] at h; simp at h
    | some q => simp [hf]
  unfold lookupRoom updateRoom
  rw [assoc_find?_update rooms code r hs]
  rfl

theorem mem_updateRoom_of_ne (rooms : Rooms) (code : String) (r : Room)
    (p : String × Room) (hp : p ∈ rooms) (hne : p.1 ≠ code) :
    p ∈ updateRoom rooms code r := by
  unfold updateRoom
  have : (if p.1 == code then (code, r) else p) = p := by
    have : (p.1 == code) = false := by simpa using hne
    simp [this]
  rw [← this]
  exact List.mem_map_of_mem _ hp

/-- The member constructed by the `join-room` handler. -/
def joinUser (socketId : String) (username : Option String) (randName : Nat) : User :=
  { id := socketId, username := jsOrStr username ("User" ++ toString randName) }

/-- The host of a room code after an operation (`none` when the room is
absent, otherwise the room's nullable host field). -/
def hostOf (rooms : Rooms) (code : String) : Option (Option String) :=
  (lookupRoom rooms code).map (fun r => r.host)

theorem joinRoom_found (sid : String) (channels : List String) (roomCode : String)
    (username : Option String) (randName : Nat) (rooms : Rooms) (room : Room)
    (h : lookupRoom rooms (jsToUpperCase roomCode) = some room) :
    joinRoom sid channels roomCode username randName rooms =
      (let code := jsToUpperCase roomCode
       let room1 := if room.users.length = 0 then { room with host := some sid } else room
       let room2 := { room1 with users := room1.users ++ [joinUser sid username randName] }
       ⟨updateRoom rooms code room2, (channels.filter (fun r => r == sid)) ++ [code],
        [Emit.sender "joined-room"
          (Payload.joinedRoom code (room2.host == some sid) room2.currentVideo
            room2.messages room2.users),
         Emit.roomOthers code "user-joined"
           (Payload.userJoined (joinUser sid username randName) room2.users.length)]⟩) := by
  unfold joinRoom joinUser
  simp only [h]

/-- C4: for every successful `join-room` on a live room, a joiner arriving at
an empty member list becomes host and its `joined-room` acknowledgment
carries `isHost: true`; a joiner arriving at a non-empty member list leaves
the room's host field unchanged. -/
theorem join_empty_room_makes_host (sid : String) (channels : List String)
    (roomCode : String) (username : Option String) (randName : Nat)
    (rooms : Rooms) (room : Room)
    (h : lookupRoom rooms (jsToUpperCase roomCode) = some room) :
    (room.users = [] →
      hostOf (joinRoom sid channels roomCode username randName rooms).rooms
          (jsToUpperCase roomCode) = some (some sid) ∧
      (joinRoom sid channels roomCode username randName rooms).emits.head? =
        some (Emit.sender "joined-room"
          (Payload.joinedRoom (jsToUpperCase roomCode) true room.currentVideo room.messages
            [joinUser sid username randName]))) ∧
    (room.users ≠ [] →
      hostOf (joinRoom sid channels roomCode username randName rooms).rooms
          (jsToUpperCase roomCode) = some room.host) := by
  rw [joinRoom_found sid channels roomCode username randName rooms room h]
  by_cases hu : room.users = []
  · refine ⟨fun _ => ?_, fun hne => absurd hu hne⟩
    constructor
    · unfold hostOf
      rw [lookupRoom_update_self rooms (jsToUpperCase roomCode) room _ h]
      simp [hu]
    · simp [hu]
  · refine ⟨fun he => absurd he hu, fun _ => ?_⟩
    have hlen : room.users.length ≠ 0 := by
      simpa [List.length_eq_zero] using hu
    unfold hostOf
    rw [lookupRoom_update_self rooms (jsToUpperCase roomCode) room _ h]
    simp [hlen]

/-- Witness for `join_empty_room_makes_host`: joining the empty room `BBBBBB`
makes `s1` host with an `isHost: true` ack, while joining `AAAAAA`, which
already has members and host `s1`, leaves the host field at `some "s1"`. -/
theorem join_empty_room_makes_host_witness :
    (hostOf (joinRoom "s1" ["s1"] "BBBBBB" (some "alice") 0 exRoomsAB).rooms "BBBBBB"
        = some (some "s1") ∧
      (joinRoom "s1" ["s1"] "BBBBBB" (some "alice") 0 exRoomsAB).emits.head? =
        some (Emit.sender "joined-room"
          (Payload.joinedRoom "BBBBBB" true none [] [joinUser "s1" (some "alice") 0]))) ∧
    hostOf (joinRoom "s2" ["s2"] "AAAAAA" (some "bob") 0 exRoomsVid).rooms "AAAAAA"
      = some (some "s1") :=
  ⟨(join_empty_room_makes_host "s1" ["s1"] "BBBBBB" (some "alice") 0 exRoomsAB
      exRoomB rfl).1 rfl,
   (join_empty_room_makes_host "s2" ["s2"] "AAAAAA" (some "bob") 0 exRoomsVid
      exRoomVid rfl).2 (by decide)⟩

/-- C2 counterexample: membership is not exclusive. From a state where
connection `s1` is the sole member of room `AAAAAA`, issuing `join-room` for
room `BBBBBB` leaves the entry of `s1` in the member list of `AAAAAA` while
also adding `s1` to the member list of `BBBBBB`. -/
theorem member_list_not_exclusive :
    ((lookupRoom (joinRoom "s1" ["s1", "AAAAAA"] "BBBBBB" (some "alice") 0 exRoomsAB).rooms
        "AAAAAA").map (fun r => r.users.any (fun u => u.id == "s1"))) = some true ∧
    ((lookupRoom (joinRoom "s1" ["s1", "AAAAAA"] "BBBBBB" (some "alice") 0 exRoomsAB).rooms
        "BBBBBB").map (fun r => r.users.any (fun u => u.id == "s1"))) = some true :=
  ⟨rfl, rfl⟩

/-- C2 amended: `join-room` for a second room leaves every broadcast channel
of the socket other than its own id before joining the new room's channel
(channel membership is exclusive), but it does not remove the connection's
Member entry from any other room's member list: every store entry whose code
differs from the joined one is unchanged. -/
theorem join_leaves_channels_not_member_lists (sid : String) (channels : List String)
    (roomCode : String) (username : Option String) (randName : Nat)
    (rooms : Rooms) (room : Room)
    (h : lookupRoom rooms (jsToUpperCase roomCode) = some room) :
    (joinRoom sid channels roomCode username randName rooms).channels
      = (channels.filter (fun r => r == sid)) ++ [jsToUpperCase roomCode] ∧
    ∀ p ∈ rooms, p.1 ≠ (jsToUpperCase roomCode) →
      p ∈ (joinRoom sid channels roomCode username randName rooms).rooms := by
  rw [joinRoom_found sid channels roomCode username randName rooms room h]
  exact ⟨rfl, fun p hp hne => mem_updateRoom_of_ne rooms (jsToUpperCase roomCode) _ p hp hne⟩

/-- Witness for `join_leaves_channels_not_member_lists`: `s1`, a member of
`AAAAAA`, joins `BBBBBB`; its channel set becomes `[s1, BBBBBB]` and the
`AAAAAA` store entry — member list included — is untouched. -/
theorem join_leaves_channels_not_member_lists_witness :
    (joinRoom "s1" ["s1", "AAAAAA"] "BBBBBB" (some "alice") 0 exRoomsAB).channels
      = ["s1", "BBBBBB"] ∧
    ("AAAAAA", exRoomA) ∈
      (joinRoom "s1" ["s1", "AAAAAA"] "BBBBBB" (some "alice") 0 exRoomsAB).rooms :=
  ⟨(join_leaves_channels_not_member_lists "s1" ["s1", "AAAAAA"] "BBBBBB" (some "alice") 0
      exRoomsAB exRoomB rfl).1,
   (join_leaves_channels_not_member_lists "s1" ["s1", "AAAAAA"] "BBBBBB" (some "alice") 0
      exRoomsAB exRoomB rfl).2 ("AAAAAA", exRoomA) (by decide) (by decide)⟩

/-- C6: a playback-control command from a connection that is not the named
room's current host, or that names a missing room, leaves the store
unchanged; `load-video` answers the sender with exactly one `error` emit,
while `video-play`, `video-pause` and `video-seek` emit nothing. -/
theorem non_host_commands_no_op (sid code : String) (url : Option String)
    (t : Option Int) (rooms : Rooms)
    (h : lookupRoom rooms code = none ∨
         ∃ room, lookupRoom rooms code = some room ∧ room.host ≠ some sid) :
    videoPlay sid code t rooms = some (rooms, []) ∧
    videoPause sid code t rooms = some (rooms, []) ∧
    videoSeek sid code t rooms = some (rooms, []) ∧
    (loadVideo sid code url rooms).1 = rooms ∧
    ((loadVideo sid code url rooms).2
        = [Emit.sender "error" (Payload.errorMsg "Room not found")] ∨
     (loadVideo sid code url rooms).2
        = [Emit.sender "error" (Payload.errorMsg "Only the host can load videos")]) := by
  rcases h with hnone | ⟨room, hr, hh⟩
  · unfold videoPlay videoPause videoSeek loadVideo
    rw [hnone]
    exact ⟨rfl, rfl, rfl, rfl, Or.inl rfl⟩
  · unfold videoPlay videoPause videoSeek loadVideo
    rw [hr]
    simp only [if_pos hh]
    exact ⟨trivial, trivial, trivial, trivial, Or.inr trivial⟩

/-- Witness for `non_host_commands_no_op`: `s2` is a member of `AAAAAA` but
not its host; all four commands leave the store unchanged, the transport
commands emit nothing, and `load-video` gets the not-host error. -/
theorem non_host_commands_no_op_witness :
    videoPlay "s2" "AAAAAA" (some 3) exRoomsVid = some (exRoomsVid, []) ∧
    videoPause "s2" "AAAAAA" (some 3) exRoomsVid = some (exRoomsVid, []) ∧
    videoSeek "s2" "AAAAAA" (some 3) exRoomsVid = some (exRoomsVid, []) ∧
    (loadVideo "s2" "AAAAAA" (some "https://youtu.be/dQw4w9WgXcQ") exRoomsVid).1
      = exRoomsVid ∧
    ((loadVideo "s2" "AAAAAA" (some "https://youtu.be/dQw4w9WgXcQ") exRoomsVid).2
        = [Emit.sender "error" (Payload.errorMsg "Room not found")] ∨
     (loadVideo "s2" "AAAAAA" (some "https://youtu.be/dQw4w9WgXcQ") exRoomsVid).2
        = [Emit.sender "error" (Payload.errorMsg "Only the host can load videos")]) :=
  non_host_commands_no_op "s2" "AAAAAA" (some "https://youtu.be/dQw4w9WgXcQ")
    (some 3) exRoomsVid (Or.inr ⟨exRoomVid, rfl, by decide⟩)

theorem jsOrZero_eq_getD (t : Option Int) : jsOrZero t = t.getD 0 := by
  cases t with
  | none => rfl
  | some v =>
    by_cases hv : v = 0
    · simp [jsOrZero, hv]
    · simp [jsOrZero, hv]

/-- C5 counterexample: with a video loaded and the host issuing the command,
`video-seek` with an absent (`undefined`) position stores `undefined` into
PlaybackState — it is not coerced to 0 — and `video-play` with a negative
position stores the negative value, so the stored position is neither always
non-negative nor always coerced. -/
theorem seek_position_not_coerced :
    storedPosition (videoSeek "s1" "AAAAAA" none exRoomsVid) "AAAAAA" = some none ∧
    (some none : Option (Option Int)) ≠ some (some 0) ∧
    storedPosition (videoPlay "s1" "AAAAAA" (some (-5)) exRoomsVid) "AAAAAA"
      = some (some (-5)) :=
  ⟨rfl, by simp, rfl⟩

/-- C5 amended: for host-issued `video-play` and `video-pause` the stored
position is the supplied value with an absent/undefined value coerced to 0
(`currentTime || 0`); `video-seek` stores the supplied value verbatim with no
coercion; none of the three enforces non-negativity, so a negative supplied
position is stored unchanged. -/
theorem transport_position_semantics (sid code : String) (t : Option Int)
    (rooms : Rooms) (room : Room) (v : Video)
    (h1 : lookupRoom rooms code = some room) (h2 : room.host = some sid)
    (h3 : room.currentVideo = some v) :
    storedPosition (videoPlay sid code t rooms) code = some (some (t.getD 0)) ∧
    storedPosition (videoPause sid code t rooms) code = some (some (t.getD 0)) ∧
    storedPosition (videoSeek sid code t rooms) code = some t := by
  have hnot : ¬ room.host ≠ some sid := by simp [h2]
  refine ⟨?_, ?_, ?_⟩
  · unfold videoPlay
    simp only [h1, if_neg hnot, h3]
    unfold storedPosition
    dsimp only
    rw [lookupRoom_update_self rooms code room _ h1]
    simp [jsOrZero_eq_getD]
  · unfold videoPause
    simp only [h1, if_neg hnot, h3]
    unfold storedPosition
    dsimp only
    rw [lookupRoom_update_self rooms code room _ h1]
    simp [jsOrZero_eq_getD]
  · unfold videoSeek
    simp only [h1, if_neg hnot, h3]
    unfold storedPosition
    dsimp only
    rw [lookupRoom_update_self rooms code room _ h1]

/-- Witness for `transport_position_semantics` at a concrete state: play
coerces `undefined` to 0, pause keeps 7, seek stores verbatim. -/
theorem transport_position_semantics_witness :
    storedPosition (videoPlay "s1" "AAAAAA" none exRoomsVid) "AAAAAA"
      = some (some 0) ∧
    storedPosition (videoPause "s1" "AAAAAA" (some 7) exRoomsVid) "AAAAAA"
      = some (some 7) ∧
    storedPosition (videoSeek "s1" "AAAAAA" (some 9) exRoomsVid) "AAAAAA"
      = some (some 9) :=
  ⟨(transport_position_semantics "s1" "AAAAAA" none exRoomsVid exRoomVid exVideo
      rfl rfl rfl).1,
   (transport_position_semantics "s1" "AAAAAA" (some 7) exRoomsVid exRoomVid exVideo
      rfl rfl rfl).2.1,
   (transport_position_semantics "s1" "AAAAAA" (some 9) exRoomsVid exRoomVid exVideo
      rfl rfl rfl).2.2⟩

theorem matchIdAt_spec (pat s cand : List Char) (h : matchIdAt pat s = some cand) :
    cand.length = 11 ∧ cand.all isUrlSafeChar = true := by
  unfold matchIdAt at h
  split at h
  · rename_i hcond
    injection h with h2
    subst h2
    exact ⟨hcond.2.1, hcond.2.2⟩
  · simp at h

theorem scanFor_spec (pat : List Char) :
    ∀ s cand, scanFor pat s = some cand →
      cand.length = 11 ∧ cand.all isUrlSafeChar = true := by
  intro s
  induction s with
  | nil => intro cand h; simp [scanFor] at h
  | cons c cs ih =>
    intro cand h
    unfold scanFor at h
    cases hm : matchIdAt pat (c :: cs) with
    | some cand2 =>
      rw [hm] at h
      injection h with h2
      subst h2
      exact matchIdAt_spec _ _ _ hm
    | none =>
      rw [hm] at h
      exact ih cand h

theorem matchQueryAt_spec (s cand : List Char) (h : matchQueryAt s = some cand) :
    cand.length = 11 ∧ cand.all isUrlSafeChar = true := by
  cases s with
  | nil => simp [matchQueryAt] at h
  | cons c rest =>
    rw [show matchQueryAt (c :: rest)
        = if c = '?' ∨ c = '&' then matchIdAt ['v', '='] rest else none from rfl] at h
    split at h
    · exact matchIdAt_spec _ _ _ h
    · simp at h

theorem scanQuery_spec :
    ∀ s cand, scanQuery s = some cand →
      cand.length = 11 ∧ cand.all isUrlSafeChar = true := by
  intro s
  induction s with
  | nil => intro cand h; simp [scanQuery] at h
  | cons c cs ih =>
    intro cand h
    unfold scanQuery at h
    cases hm : matchQueryAt (c :: cs) with
    | some cand2 =>
      rw [hm] at h
      injection h with h2
      subst h2
      exact matchQueryAt_spec _ _ hm
    | none =>
      rw [hm] at h
      exact ih cand h

/-- Every id the URL parser extracts is exactly eleven URL-safe characters. -/
theorem extractYouTubeVideoId_spec (url : Option String) (vid : String)
    (h : extractYouTubeVideoId url = some vid) :
    vid.length = 11 ∧ vid.data.all isUrlSafeChar = true := by
  unfold extractYouTubeVideoId at h
  cases url with
  | none => simp at h
  | some u =>
    dsimp only at h
    by_cases hu : u = ""
    · rw [if_pos hu] at h; simp at h
    · rw [if_neg hu] at h
      cases h1 : scanFor "youtu.be/".data u.data with
      | some cand =>
        rw [h1] at h
        injection h with h2
        subst h2
        exact scanFor_spec _ _ _ h1
      | none =>
        rw [h1] at h
        cases h2 : scanQuery u.data with
        | some cand =>
          rw [h2] at h
          injection h with h3
          subst h3
          exact scanQuery_spec _ _ h2
        | none =>
          rw [h2] at h
          cases h3 : scanFor "youtube.com/embed/".data u.data with
          | some cand =>
            rw [h3] at h
            injection h with h4
            subst h4
            exact scanFor_spec _ _ _ h3
          | none =>
            rw [h3] at h
            cases h4 : scanFor "youtube.com/watch?v=".data u.data with
            | some cand =>
              rw [h4] at h
              injection h with h5
              subst h5
              exact scanFor_spec _ _ _ h4
            | none => rw [h4] at h; simp at h

/-- C7: host-issued `load-video` extracts an id of exactly eleven URL-safe
characters; on success it replaces PlaybackState wholesale with
`{id, title "Video <id>", position 0, playing false}` and broadcasts
`video-loaded` to the whole room (`io.to`, host included); when no pattern
matches it emits the invalid-URL error to the sender and leaves the store
unchanged. -/
theorem load_video_parses_and_replaces (sid code : String) (url : Option String)
    (rooms : Rooms) (room : Room)
    (h1 : lookupRoom rooms code = some room) (h2 : room.host = some sid) :
    (∀ vid, extractYouTubeVideoId url = some vid →
        vid.length = 11 ∧ vid.data.all isUrlSafeChar = true ∧
        loadVideo sid code url rooms =
          (updateRoom rooms code
             { room with
                 currentVideo :=
                   some ({ videoId := vid, title := "Video " ++ vid,
                           position := some 0, isPlaying := false }) },
           [Emit.room code "video-loaded" (Payload.videoLoaded vid ("Video " ++ vid))])) ∧
    (extractYouTubeVideoId url = none →
        loadVideo sid code url rooms =
          (rooms, [Emit.sender "error" (Payload.errorMsg "Invalid YouTube URL")])) := by
  have hnot : ¬ room.host ≠ some sid := by simp [h2]
  constructor
  · intro vid hv
    have hspec := extractYouTubeVideoId_spec url vid hv
    refine ⟨hspec.1, hspec.2, ?_⟩
    unfold loadVideo
    simp only [h1, if_neg hnot, hv]
  · intro hv
    unfold loadVideo
    simp only [h1, if_neg hnot, hv]

/-- Witness for `load_video_parses_and_replaces`: the host loads a short-link
URL; the extracted id is eleven URL-safe characters and the room's playback
state is replaced, with a whole-room broadcast. -/
theorem load_video_parses_and_replaces_witness :
    "dQw4w9WgXcQ".length = 11 ∧ "dQw4w9WgXcQ".data.all isUrlSafeChar = true ∧
    loadVideo "s1" "AAAAAA" (some "https://youtu.be/dQw4w9WgXcQ") exRoomsVid =
      (updateRoom exRoomsVid "AAAAAA"
         { exRoomVid with
             currentVideo :=
               some ({ videoId := "dQw4w9WgXcQ", title := "Video " ++ "dQw4w9WgXcQ",
                       position := some 0, isPlaying := false }) },
       [Emit.room "AAAAAA" "video-loaded"
          (Payload.videoLoaded "dQw4w9WgXcQ" ("Video " ++ "dQw4w9WgXcQ"))]) :=
  (load_video_parses_and_replaces "s1" "AAAAAA" (some "https://youtu.be/dQw4w9WgXcQ")
      exRoomsVid exRoomVid rfl rfl).1 "dQw4w9WgXcQ" rfl

/-- The ChatMessage the `send-message` handler constructs. -/
def mkChatMessage (username msg : String) (now : Nat) : ChatMessage :=
  { id := toString now, username := username, message := msg.trim, timestamp := now }

/-- C8: when a member sends a message to a live room whose log holds at most
50 messages, the log still holds at most 50 afterwards; below capacity the
message is appended, at capacity the oldest message is evicted from the
front with the order of the survivors preserved; the new message is
broadcast to the whole room (`io.to`, sender included). -/
theorem send_message_bounds_chat (sid code msg : String) (now : Nat)
    (rooms : Rooms) (room : Room) (user : User)
    (h1 : lookupRoom rooms code = some room)
    (h2 : room.users.find? (fun u => u.id == sid) = some user)
    (h3 : room.messages.length ≤ 50) :
    ((lookupRoom (sendMessage sid code msg now rooms).1 code).map
        (fun r => r.messages.length)).getD 0 ≤ 50 ∧
    (room.messages.length < 50 →
      lookupRoom (sendMessage sid code msg now rooms).1 code =
        some { room with
                 messages := room.messages ++ [mkChatMessage user.username msg now] }) ∧
    (room.messages.length = 50 →
      lookupRoom (sendMessage sid code msg now rooms).1 code =
        some { room with
                 messages := room.messages.drop 1
                   ++ [mkChatMessage user.username msg now] }) ∧
    (sendMessage sid code msg now rooms).2 =
      [Emit.room code "new-message" (Payload.newMessage (mkChatMessage user.username msg now))] := by
  have hsend : sendMessage sid code msg now rooms =
      (updateRoom rooms code
        { room with
            messages :=
              (if (room.messages ++ [mkChatMessage user.username msg now]).length > 50
               then (room.messages ++ [mkChatMessage user.username msg now]).drop
                      ((room.messages ++ [mkChatMessage user.username msg now]).length - 50)
               else room.messages ++ [mkChatMessage user.username msg now]) },
       [Emit.room code "new-message" (Payload.newMessage (mkChatMessage user.username msg now))]) := by
    unfold sendMessage mkChatMessage
    simp only [h1, h2]
  have hlen1 : (room.messages ++ [mkChatMessage user.username msg now]).length
      = room.messages.length + 1 := by simp
  rcases Nat.lt_or_ge room.messages.length 50 with hlt | hge
  · have hnot : ¬ (room.messages ++ [mkChatMessage user.username msg now]).length > 50 := by
      rw [hlen1]; omega
    rw [hsend]
    rw [if_neg hnot]
    have hlook := lookupRoom_update_self rooms code room
      { room with messages := room.messages ++ [mkChatMessage user.username msg now] } h1
    refine ⟨?_, fun _ => hlook, fun heq => absurd heq (by omega), rfl⟩
    rw [hlook]
    simp only [Option.map_some', Option.getD_some]
    simp only [List.length_append, List.length_cons, List.length_nil]
    omega
  · have heq : room.messages.length = 50 := Nat.le_antisymm h3 hge
    have hpos : (room.messages ++ [mkChatMessage user.username msg now]).length > 50 := by
      rw [hlen1]; omega
    have hdrop1 : (room.messages ++ [mkChatMessage user.username msg now]).length - 50 = 1 := by
      rw [hlen1]; omega
    have hdrop : (room.messages ++ [mkChatMessage user.username msg now]).drop 1
        = room.messages.drop 1 ++ [mkChatMessage user.username msg now] := by
      rw [List.drop_append_eq_append_drop]
      have : 1 - room.messages.length = 0 := by omega
      rw [this]
      rfl
    rw [hsend, if_pos hpos, hdrop1, hdrop]
    have hlook := lookupRoom_update_self rooms code room
      { room with messages := room.messages.drop 1 ++ [mkChatMessage user.username msg now] } h1
    refine ⟨?_, fun hlt2 => absurd hlt2 (by omega), fun _ => hlook, rfl⟩
    rw [hlook]
    simp only [Option.map_some', Option.getD_some]
    simp only [List.length_append, List.length_cons, List.length_nil, List.length_drop]
    omega

/-- Witness for `send_message_bounds_chat`: member `s1` of `AAAAAA` (log
empty) sends a message; the log becomes that single message, stays within
bound, and the broadcast goes to the whole room. -/
theorem send_message_bounds_chat_witness :
    ((lookupRoom (sendMessage "s1" "AAAAAA" " hi " 5 exRoomsVid).1 "AAAAAA").map
        (fun r => r.messages.length)).getD 0 ≤ 50 ∧
    lookupRoom (sendMessage "s1" "AAAAAA" " hi " 5 exRoomsVid).1 "AAAAAA" =
      some { exRoomVid with
               messages := exRoomVid.messages ++ [mkChatMessage userS1.username " hi " 5] } ∧
    (sendMessage "s1" "AAAAAA" " hi " 5 exRoomsVid).2 =
      [Emit.room "AAAAAA" "new-message" (Payload.newMessage (mkChatMessage userS1.username " hi " 5))] :=
  ⟨(send_message_bounds_chat "s1" "AAAAAA" " hi " 5 exRoomsVid exRoomVid userS1
      rfl rfl (by decide)).1,
   (send_message_bounds_chat "s1" "AAAAAA" " hi " 5 exRoomsVid exRoomVid userS1
      rfl rfl (by decide)).2.1 (by decide),
   (send_message_bounds_chat "s1" "AAAAAA" " hi " 5 exRoomsVid exRoomVid userS1
      rfl rfl (by decide)).2.2.2⟩

/-- C9: every code returned by room creation is six characters drawn from
the fixed 36-symbol alphabet, differs from the code of every room live at
the moment of creation, and the inserted room has no host, an empty member
list, no playback state, and an empty chat log. -/
theorem create_room_fresh_code (attempts : Nat → Fin 6 → Fin 36) (now : Nat)
    (rooms : Rooms)
    (h : ∃ n, lookupRoom rooms (generateRoomCode (attempts n)) = none) :
    (createRoom attempts now rooms h).1.length = 6 ∧
    (∀ c ∈ (createRoom attempts now rooms h).1.data, c ∈ roomChars) ∧
    (∀ p ∈ rooms, p.1 ≠ (createRoom attempts now rooms h).1) ∧
    lookupRoom (createRoom attempts now rooms h).2 (createRoom attempts now rooms h).1 =
      some { id := (createRoom attempts now rooms h).1, host := none, users := [],
             currentVideo := none, messages := [], createdAt := now } := by
  have hfresh : lookupRoom rooms (generateRoomCode (attempts (Nat.find h))) = none :=
    Nat.find_spec h
  have hc1 : (createRoom attempts now rooms h).1 = generateRoomCode (attempts (Nat.find h)) :=
    rfl
  have hc2 : (createRoom attempts now rooms h).2 = rooms ++
      [(generateRoomCode (attempts (Nat.find h)),
        { id := generateRoomCode (attempts (Nat.find h)), host := none, users := [],
          currentVideo := none, messages := [], createdAt := now })] := rfl
  have hfind : rooms.find?
      (fun q => q.1 == generateRoomCode (attempts (Nat.find h))) = none := by
    unfold lookupRoom at hfresh
    cases hq : rooms.find? (fun q => q.1 == generateRoomCode (attempts (Nat.find h))) with
    | none => rfl
    | some q => rw [hq] at hfresh; simp at hfresh
  simp only [hc1, hc2]
  refine ⟨?_, ?_, ?_, ?_⟩
  · show (generateRoomCode (attempts (Nat.find h))).length = 6
    unfold generateRoomCode
    simp [String.length]
  · intro c hc
    have hc2 : c ∈ (List.finRange 6).map
        (fun i => roomChars.get (Fin.cast roomChars_length.symm (attempts (Nat.find h) i))) := hc
    rcases List.mem_map.1 hc2 with ⟨i, _, rfl⟩
    exact List.get_mem _ _ _
  · intro p hp
    have hnp := List.find?_eq_none.1 hfind p hp
    simpa using hnp
  · unfold lookupRoom
    rw [assoc_find?_append rooms _ _ hfind]
    rfl

/-- Witness for `create_room_fresh_code`: creating a room in an empty store
with constant draws yields a six-character code over the alphabet and the
empty room. -/
theorem create_room_fresh_code_witness :
    (createRoom attempts0 0 [] ⟨0, rfl⟩).1.length = 6 ∧
    lookupRoom (createRoom attempts0 0 [] ⟨0, rfl⟩).2 (createRoom attempts0 0 [] ⟨0, rfl⟩).1 =
      some { id := (createRoom attempts0 0 [] ⟨0, rfl⟩).1, host := none, users := [],
             currentVideo := none, messages := [], createdAt := 0 } :=
  ⟨(create_room_fresh_code attempts0 0 [] ⟨0, rfl⟩).1,
   (create_room_fresh_code attempts0 0 [] ⟨0, rfl⟩).2.2.2⟩

/-- The room object `POST /api/create-room` inserts (code `AAAAAA`). -/
def freshRoomA : Room :=
  { id := "AAAAAA", host := none, users := [],
    currentVideo := none, messages := [], createdAt := 0 }

/-- A freshly created room (`currentVideo` still `null`) joined by `s1`, who
therefore became host. -/
def demoRooms : Rooms :=
  (joinRoom "s1" ["s1"] "AAAAAA" (some "alice") 0 [("AAAAAA", freshRoomA)]).rooms

/-- C10: the state in which a room's host issues a transport command before
any media was loaded is reachable (the room comes out of room creation with
`currentVideo: null`, and the first joiner is host); in it the `video-play`,
`video-pause` and `video-seek` handler bodies reach the field assignment on
the null PlaybackState (modelled as the `none` result, a thrown `TypeError`)
instead of being silent no-ops. -/
theorem null_playback_transport_throws :
    createRoom attempts0 0 [] ⟨0, rfl⟩ = ("AAAAAA", [("AAAAAA", freshRoomA)]) ∧
    lookupRoom demoRooms "AAAAAA" =
      some { id := "AAAAAA", host := some "s1",
             users := [{ id := "s1", username := "alice" }],
             currentVideo := none, messages := [], createdAt := 0 } ∧
    videoPlay "s1" "AAAAAA" (some 5) demoRooms = none ∧
    videoPause "s1" "AAAAAA" (some 5) demoRooms = none ∧
    videoSeek "s1" "AAAAAA" (some 5) demoRooms = none ∧
    (none : Option (Rooms × List Emit)) ≠ some (demoRooms, []) := by
  refine ⟨?_, rfl, rfl, rfl, rfl, by simp⟩
  unfold createRoom
  have h0 : Nat.find (⟨0, rfl⟩ : ∃ n, lookupRoom [] (generateRoomCode (attempts0 n)) = none)
      = 0 := by
    rw [Nat.find_eq_zero]
    rfl
  rw [h0]
  rfl

theorem disconnect_fst (sid : String) (rooms : Rooms) :
    (disconnect sid rooms).1
      = cleanupEmptyRooms
          (rooms.map (fun p => (p.1, (disconnectRoomStep sid p.1 p.2).1))) := by
  unfold disconnect
  dsimp only
  congr 1
  rw [List.map_map]
  rfl

theorem disconnect_snd (sid : String) (rooms : Rooms) :
    (disconnect sid rooms).2
      = (rooms.map (fun p => (disconnectRoomStep sid p.1 p.2).2)).flatten := by
  unfold disconnect
  dsimp only
  rw [List.map_map]
  rfl

theorem disconnectRoomStep_host_promote (sid code : String) (room : Room)
    (u u0 : User) (rest : List User)
    (hhost : room.host = some sid)
    (hrem : removeUser sid room.users = some (u, u0 :: rest)) :
    disconnectRoomStep sid code room =
      ({ room with users := u0 :: rest, host := some u0.id },
       [Emit.room code "new-host" (Payload.newHost u0),
        Emit.roomOthers code "user-left"
          (Payload.userLeft u (u0 :: rest).length (some u0))]) := by
  unfold disconnectRoomStep
  rw [hrem]
  simp [hhost]

theorem disconnectRoomStep_emit_shape (sid c : String) (room : Room) :
    ∀ e ∈ (disconnectRoomStep sid c room).2,
      (∃ q, e = Emit.room c "new-host" q) ∨ ∃ q, e = Emit.roomOthers c "user-left" q := by
  intro e he
  unfold disconnectRoomStep at he
  cases hrem : removeUser sid room.users with
  | none => rw [hrem] at he; simp at he
  | some pr =>
    obtain ⟨u, remaining⟩ := pr
    rw [hrem] at he
    cases remaining with
    | nil =>
      simp at he
      exact Or.inr ⟨_, he⟩
    | cons u0 rest =>
      by_cases hb : (room.host == some sid) = true
      · simp [hb] at he
        rcases he with he | he
        · exact Or.inl ⟨_, he⟩
        · exact Or.inr ⟨_, he⟩
      · simp [hb] at he
        exact Or.inr ⟨_, he⟩

theorem disconnectRoomStep_count_ne (sid c code : String) (room : Room)
    (hne : c ≠ code) :
    ((disconnectRoomStep sid c room).2.countP (fun e => isNewHostEmit code e)) = 0 := by
  rw [List.countP_eq_zero]
  intro e he
  rcases disconnectRoomStep_emit_shape sid c room e he with ⟨q, rfl⟩ | ⟨q, rfl⟩
  · simp [isNewHostEmit, hne]
  · simp [isNewHostEmit]

theorem disconnectRoomStep_count_host (sid code : String) (room : Room)
    (u u0 : User) (rest : List User)
    (hhost : room.host = some sid)
    (hrem : removeUser sid room.users = some (u, u0 :: rest)) :
    ((disconnectRoomStep sid code room).2.countP (fun e => isNewHostEmit code e)) = 1 := by
  rw [disconnectRoomStep_host_promote sid code room u u0 rest hhost hrem]
  simp [isNewHostEmit, List.countP_cons]

theorem disconnect_count_zero (sid code : String) (rooms : Rooms)
    (habs : ∀ p ∈ rooms, p.1 ≠ code) :
    ((disconnect sid rooms).2.countP (fun e => isNewHostEmit code e)) = 0 := by
  rw [disconnect_snd]
  revert habs
  induction rooms with
  | nil => intro habs; rfl
  | cons p ps ih =>
    intro habs
    obtain ⟨c, r⟩ := p
    rw [List.map_cons, List.flatten_cons, List.countP_append]
    rw [disconnectRoomStep_count_ne sid c code r (habs (c, r) (List.mem_cons_self _ _))]
    rw [ih (fun q hq => habs q (List.mem_cons_of_mem _ hq))]

theorem disconnect_count_one (sid code : String) (rooms : Rooms) (room : Room)
    (hone : ((disconnectRoomStep sid code room).2.countP
      (fun e => isNewHostEmit code e)) = 1) :
    ∀ (_ : (rooms.map (fun p => p.1)).Nodup) (_ : lookupRoom rooms code = some room),
    ((disconnect sid rooms).2.countP (fun e => isNewHostEmit code e)) = 1 := by
  induction rooms with
  | nil => intro _ hlook; simp [lookupRoom] at hlook
  | cons p ps ih =>
    intro hkeys hlook
    obtain ⟨c, r⟩ := p
    rw [disconnect_snd, List.map_cons, List.flatten_cons, List.countP_append,
      ← disconnect_snd]
    by_cases hc : (c == code) = true
    · have hceq : c = code := by simpa using hc
      subst hceq
      have hfind : List.find? (fun q => q.1 == c) ((c, r) :: ps) = some (c, r) :=
        List.find?_cons_of_pos ps (show ((c, r).1 == c) = true from hc)
      have hr : r = room := by
        unfold lookupRoom at hlook
        rw [hfind] at hlook
        simpa using hlook
      subst hr
      rw [List.map_cons] at hkeys
      have hnotin : c ∉ ps.map (fun p => p.1) := (List.nodup_cons.1 hkeys).1
      have hps : ∀ q ∈ ps, q.1 ≠ c := by
        intro q hq hqc
        exact hnotin (hqc ▸ List.mem_map_of_mem _ hq)
      rw [hone, disconnect_count_zero sid c ps hps]
    · have hcne : c ≠ code := by simpa using hc
      have hlook2 : lookupRoom ps code = some room := by
        unfold lookupRoom at hlook ⊢
        rw [List.find?_cons_of_neg _ (by simp [hc])] at hlook
        exact hlook
      have hkeys2 : (ps.map (fun p => p.1)).Nodup :=
        (List.nodup_cons.1 (by simpa using hkeys)).2
      rw [disconnectRoomStep_count_ne sid c code r hcne, ih hkeys2 hlook2]

theorem lookupRoom_disconnect (sid code : String) (rooms : Rooms) (room : Room)
    (hne : (disconnectRoomStep sid code room).1.users.length ≠ 0) :
    ∀ (_ : lookupRoom rooms code = some room),
    lookupRoom (disconnect sid rooms).1 code
      = some (disconnectRoomStep sid code room).1 := by
  induction rooms with
  | nil => intro hlook; simp [lookupRoom] at hlook
  | cons p ps ih =>
    intro hlook
    obtain ⟨c, r⟩ := p
    rw [disconnect_fst, List.map_cons]
    unfold cleanupEmptyRooms
    rw [List.filter_cons]
    by_cases hc : (c == code) = true
    · have hceq : c = code := by simpa using hc
      subst hceq
      have hfind : List.find? (fun q => q.1 == c) ((c, r) :: ps) = some (c, r) :=
        List.find?_cons_of_pos ps (show ((c, r).1 == c) = true from hc)
      have hr : r = room := by
        unfold lookupRoom at hlook
        rw [hfind] at hlook
        simpa using hlook
      subst hr
      have hkeep : ((c, (disconnectRoomStep sid c r).1).2.users.length != 0) = true := by
        simpa [bne_iff_ne] using hne
      rw [if_pos hkeep]
      unfold lookupRoom
      rw [List.find?_cons_of_pos _ (by simp)]
      rfl
    · have hlook2 : lookupRoom ps code = some room := by
        unfold lookupRoom at hlook ⊢
        rw [List.find?_cons_of_neg _ (by simp [hc])] at hlook
        exact hlook
      have hthis := ih hlook2
      rw [disconnect_fst] at hthis
      unfold cleanupEmptyRooms at hthis
      by_cases hkeep : ((c, (disconnectRoomStep sid c r).1).2.users.length != 0) = true
      · rw [if_pos hkeep]
        unfold lookupRoom at hthis ⊢
        rw [List.find?_cons_of_neg _ (by simp [hc])]
        exact hthis
      · rw [if_neg hkeep]
        exact hthis

/-- C3: when the host connection disconnects from a room in which other
members remain, the room's host becomes the first element of the remaining
member list (the earliest-joined remaining member), that new host is one of
the remaining members, and across all the emits of the disconnect handler
exactly one `new-host` event is broadcast to that room. -/
theorem host_disconnect_promotes_first_remaining (sid code : String) (rooms : Rooms)
    (room : Room) (u u0 : User) (rest : List User)
    (hkeys : (rooms.map (fun p => p.1)).Nodup)
    (hlook : lookupRoom rooms code = some room)
    (hhost : room.host = some sid)
    (hrem : removeUser sid room.users = some (u, u0 :: rest)) :
    lookupRoom (disconnect sid rooms).1 code =
      some { room with users := u0 :: rest, host := some u0.id } ∧
    u0 ∈ u0 :: rest ∧
    ((disconnect sid rooms).2.countP (fun e => isNewHostEmit code e)) = 1 := by
  have hpr := disconnectRoomStep_host_promote sid code room u u0 rest hhost hrem
  have hne : (disconnectRoomStep sid code room).1.users.length ≠ 0 := by
    rw [hpr]; simp
  refine ⟨?_, List.mem_cons_self _ _, ?_⟩
  · have hthis := lookupRoom_disconnect sid code rooms room hne hlook
    rw [hpr] at hthis
    exact hthis
  · exact disconnect_count_one sid code rooms room
      (disconnectRoomStep_count_host sid code room u u0 rest hhost hrem) hkeys hlook

/-- A room hosted by `s1` with two members, used to witness host handoff. -/
def exRoomTwo : Room :=
  { id := "AAAAAA", host := some "s1", users := [userS1, userS2],
    currentVideo := none, messages := [], createdAt := 0 }

def exRoomsTwo : Rooms := [("AAAAAA", exRoomTwo)]

/-- Witness for `host_disconnect_promotes_first_remaining`: host `s1` of
`AAAAAA` disconnects; `s2`, the earliest-joined remaining member, becomes
host and exactly one `new-host` broadcast is emitted. -/
theorem host_disconnect_promotes_first_remaining_witness :
    lookupRoom (disconnect "s1" exRoomsTwo).1 "AAAAAA" =
      some { exRoomTwo with users := [userS2], host := some userS2.id } ∧
    userS2 ∈ [userS2] ∧
    ((disconnect "s1" exRoomsTwo).2.countP (fun e => isNewHostEmit "AAAAAA" e)) = 1 :=
  host_disconnect_promotes_first_remaining "s1" "AAAAAA" exRoomsTwo exRoomTwo
    userS1 userS2 [] (by decide) rfl rfl rfl

theorem count_filter_of_pos {α : Type} [DecidableEq α] (l : List α) (q : α → Bool)
    (o : α) (hq : q o = true) : (l.filter q).count o = l.count o := by
  induction l with
  | nil => rfl
  | cons a l ih =>
    by_cases ha : q a = true
    · rw [List.filter_cons_of_pos ha, List.count_cons, List.count_cons, ih]
    · rw [List.filter_cons_of_neg (by simpa using ha), List.count_cons, ih]
      have hao : (a == o) = false := by
        rw [beq_eq_false_iff_ne]
        intro hcon
        rw [hcon] at ha
        exact ha hq
      rw [hao]
      simp

theorem voiceJoin_fst_set (cid code : String) (voice : VoiceSets) :
    voiceSetOf (voiceJoin cid code voice).1 code =
      (if cid ∈ voiceSetOf voice code then voiceSetOf voice code
       else voiceSetOf voice code ++ [cid]) := by
  unfold voiceJoin voiceSetOf
  cases hf : voice.find? (fun p => p.1 == code) with
  | none =>
    simp only [hf, Option.map_none', Option.getD_none, Option.isSome_none,
      Bool.false_eq_true, if_false]
    rw [assoc_find?_append voice code _ hf]
    rfl
  | some q =>
    simp only [hf, Option.map_some', Option.getD_some, Option.isSome_some, if_true]
    rw [assoc_find?_update voice code _ (by rw [hf]; rfl)]
    rfl

theorem voiceJoin_snd (cid code : String) (voice : VoiceSets) :
    (voiceJoin cid code voice).2 =
      Emit.room code "voice-chat-users"
        (Payload.voiceUsers
          (if cid ∈ voiceSetOf voice code then voiceSetOf voice code
           else voiceSetOf voice code ++ [cid]))
      :: ((voiceSetOf voice code).filter (fun o => o ≠ cid)).map
           (fun o => Emit.direct o "user-joined-voice" (Payload.joinedVoice cid)) := by
  unfold voiceJoin voiceSetOf
  cases hf : voice.find? (fun p => p.1 == code) with
  | none => simp only [hf]
  | some q => simp only [hf]

/-- C1 (the voice-join handler is modelled from the spec, the server sources
lacking it): a voice-join adds the connection to the room's voice set,
broadcasts the updated voice-participant set to the room as
`voice-chat-users`, and sends exactly one pairwise `user-joined-voice`
notification to each *other* current voice participant — and none to the
newcomer itself. -/
theorem voice_join_adds_and_notifies (cid code : String) (voice : VoiceSets)
    (hnd : (voiceSetOf voice code).Nodup) :
    cid ∈ voiceSetOf (voiceJoin cid code voice).1 code ∧
    Emit.room code "voice-chat-users"
        (Payload.voiceUsers (voiceSetOf (voiceJoin cid code voice).1 code))
      ∈ (voiceJoin cid code voice).2 ∧
    (∀ o ∈ voiceSetOf voice code, o ≠ cid →
      ((voiceJoin cid code voice).2.count
          (Emit.direct o "user-joined-voice" (Payload.joinedVoice cid))) = 1) ∧
    (∀ q, Emit.direct cid "user-joined-voice" q ∉ (voiceJoin cid code voice).2) := by
  refine ⟨?_, ?_, ?_, ?_⟩
  · rw [voiceJoin_fst_set]
    by_cases hm : cid ∈ voiceSetOf voice code
    · rw [if_pos hm]; exact hm
    · rw [if_neg hm]; exact List.mem_append_right _ (List.mem_singleton_self _)
  · rw [voiceJoin_snd, voiceJoin_fst_set]
    exact List.mem_cons_self _ _
  · intro o ho hne
    rw [voiceJoin_snd]
    rw [List.count_cons]
    have hhead : (Emit.room code "voice-chat-users"
          (Payload.voiceUsers
            (if cid ∈ voiceSetOf voice code then voiceSetOf voice code
             else voiceSetOf voice code ++ [cid]))
        == Emit.direct o "user-joined-voice" (Payload.joinedVoice cid)) = false := by
      rw [beq_eq_false_iff_ne]
      intro hcon
      exact Emit.noConfusion hcon
    simp only [hhead, Bool.false_eq_true, if_false, Nat.add_zero]
    have hinj : Function.Injective
        (fun x => Emit.direct x "user-joined-voice" (Payload.joinedVoice cid)) := by
      intro a b hab
      simpa using hab
    rw [List.count_map_of_injective _ _ hinj o]
    have hfilter : ((voiceSetOf voice code).filter (fun x => x ≠ cid)).count o
        = (voiceSetOf voice code).count o :=
      count_filter_of_pos _ _ o (by simp [hne])
    rw [hfilter, List.count_eq_one_of_mem hnd ho]
  · intro q hq
    rw [voiceJoin_snd] at hq
    rcases List.mem_cons.1 hq with hq | hq
    · exact Emit.noConfusion hq
    · rcases List.mem_map.1 hq with ⟨o, ho, hoq⟩
      have hone : o = cid := by
        have := congrArg (fun e => match e with
          | Emit.direct t _ _ => t
          | _ => "") hoq
        simpa using this
      have : o ≠ cid := by
        have hmem := List.mem_filter.1 ho
        simpa using hmem.2
      exact this hone

/-- A voice state with two participants in `AAAAAA`. -/
def exVoice : VoiceSets := [("AAAAAA", ["c1", "c2"])]

/-- Witness for `voice_join_adds_and_notifies`: `c3` joins voice in `AAAAAA`
where `c1` and `c2` are already in voice; it lands in the set, the set is
broadcast, and `c1` gets exactly one pairwise notification. -/
theorem voice_join_adds_and_notifies_witness :
    "c3" ∈ voiceSetOf (voiceJoin "c3" "AAAAAA" exVoice).1 "AAAAAA" ∧
    Emit.room "AAAAAA" "voice-chat-users"
        (Payload.voiceUsers (voiceSetOf (voiceJoin "c3" "AAAAAA" exVoice).1 "AAAAAA"))
      ∈ (voiceJoin "c3" "AAAAAA" exVoice).2 ∧
    ((voiceJoin "c3" "AAAAAA" exVoice).2.count
        (Emit.direct "c1" "user-joined-voice" (Payload.joinedVoice "c3"))) = 1 :=
  ⟨(voice_join_adds_and_notifies "c3" "AAAAAA" exVoice (by decide)).1,
   (voice_join_adds_and_notifies "c3" "AAAAAA" exVoice (by decide)).2.1,
   (voice_join_adds_and_notifies "c3" "AAAAAA" exVoice (by decide)).2.2.1 "c1"
     (by decide) (by decide)⟩

end WatchParty
